import Mathlib

/-!
Verification development for the HappyRobot shipments/load-management
application.  The frontend client (frontend/src) is embedded directly from
the TypeScript source; the FastAPI backend is not part of the repository
snapshot, so its endpoint semantics are modelled from the specification
(each such definition carries a doc comment starting with
"Modelled from the spec:").
-/

/-- Lifecycle status of a load, from frontend/src/types.ts
(`status: 'pending' | 'agreed'`). -/
inductive Status where
  | pending
  | agreed
deriving DecidableEq

/-- Phone call type, from frontend/src/types.ts (`CallType`). -/
inductive CallType where
  | manual
  | agent
deriving DecidableEq

/-- Phone call sentiment, from frontend/src/types.ts (`SentimentType`). -/
inductive Sentiment where
  | positive
  | neutral
  | negative
deriving DecidableEq

/-- A load record, embedded from the `Shipment` interface in
frontend/src/types.ts.  Timestamps are epoch instants as naturals,
monetary and duration values are rationals. -/
structure Shipment where
  id : String
  load_id : String
  origin : String
  destination : String
  pickup_datetime : Nat
  delivery_datetime : Nat
  equipment_type : Option String := none
  loadboard_rate : Option Rat := none
  notes : Option String := none
  weight : Option Rat := none
  commodity_type : Option String := none
  num_of_pieces : Option Nat := none
  miles : Option Rat := none
  dimensions : Option String := none
  agreed_price : Option Rat := none
  carrier_description : Option String := none
  status : Status := .pending
  created_at : Nat := 0
  updated_at : Nat := 0
  assigned_via_url : Bool := false
  time_per_call_seconds : Option Rat := none
deriving DecidableEq

instance : Inhabited Shipment :=
  ⟨{ id := "", load_id := "", origin := "", destination := "",
     pickup_datetime := 0, delivery_datetime := 0 }⟩

/-- A phone call record as it flows through the running system.  The
duration field is the seconds-valued field that every reader and writer in
the frontend uses (`phoneCallData.seconds` in LoadForm.tsx,
`call.seconds` in AllPhoneCallsDialog.tsx). -/
structure PhoneCall where
  id : String
  shipment_id : String
  agreed : Bool
  seconds : Rat
  call_type : CallType
  call_id : Option String := none
  sentiment : Sentiment := .neutral
  notes : Option String := none
  created_at : Nat := 0
deriving DecidableEq

/-- The backing store: loads plus their phone calls.
Modelled from the spec: the backend keeps an in-memory collection of load
records and an associated phone call list (spec section 4.1). -/
structure Database where
  shipments : List Shipment
  phone_calls : List PhoneCall
deriving DecidableEq

instance : Inhabited Database := ⟨⟨[], []⟩⟩

/-- Error taxonomy of the REST layer.
Modelled from the spec: validation errors, not-found and duplicate-id
conflicts (spec section 7). -/
inductive ApiError where
  | validation (msg : String)
  | notFound
  | conflict
deriving DecidableEq

/-- Create payload, embedded from the `ShipmentCreate` interface in
frontend/src/types.ts. -/
structure ShipmentCreate where
  load_id : String
  origin : String
  destination : String
  pickup_datetime : Nat
  delivery_datetime : Nat
  equipment_type : Option String := none
  loadboard_rate : Option Rat := none
  notes : Option String := none
  weight : Option Rat := none
  commodity_type : Option String := none
  num_of_pieces : Option Nat := none
  miles : Option Rat := none
  dimensions : Option String := none
  agreed_price : Option Rat := none
  carrier_description : Option String := none
deriving DecidableEq

/-- Partial-update payload, embedded from the `ShipmentUpdate` interface in
frontend/src/types.ts.  Note there is no provenance field: callers cannot
supply `assigned_via_url`. -/
structure ShipmentUpdate where
  load_id : Option String := none
  origin : Option String := none
  destination : Option String := none
  pickup_datetime : Option Nat := none
  delivery_datetime : Option Nat := none
  equipment_type : Option String := none
  loadboard_rate : Option Rat := none
  notes : Option String := none
  weight : Option Rat := none
  commodity_type : Option String := none
  num_of_pieces : Option Nat := none
  miles : Option Rat := none
  dimensions : Option String := none
  status : Option Status := none
  agreed_price : Option Rat := none
  carrier_description : Option String := none
  time_per_call_seconds : Option Rat := none
deriving DecidableEq

/-- Merge a partial update into a stored record, supplied fields winning.
Modelled from the spec: `update(id, partial)` merges only supplied fields
(spec section 4.1). -/
def applyUpdate (s : Shipment) (u : ShipmentUpdate) : Shipment :=
  { s with
    load_id := u.load_id.getD s.load_id
    origin := u.origin.getD s.origin
    destination := u.destination.getD s.destination
    pickup_datetime := u.pickup_datetime.getD s.pickup_datetime
    delivery_datetime := u.delivery_datetime.getD s.delivery_datetime
    equipment_type := u.equipment_type <|> s.equipment_type
    loadboard_rate := u.loadboard_rate <|> s.loadboard_rate
    notes := u.notes <|> s.notes
    weight := u.weight <|> s.weight
    commodity_type := u.commodity_type <|> s.commodity_type
    num_of_pieces := u.num_of_pieces <|> s.num_of_pieces
    miles := u.miles <|> s.miles
    dimensions := u.dimensions <|> s.dimensions
    status := u.status.getD s.status
    agreed_price := u.agreed_price <|> s.agreed_price
    carrier_description := u.carrier_description <|> s.carrier_description
    time_per_call_seconds := u.time_per_call_seconds <|> s.time_per_call_seconds }

def deliveryBeforePickupMsg : String := "delivery_datetime must be after pickup_datetime"

def agreedFieldsMsg : String :=
  "agreed_price and carrier_description are required when status is agreed"

/-- `POST /shipments`.
Modelled from the spec: requires the core fields, rejects delivery not
strictly after pickup, rejects a duplicate load identifier, persists the
record with provenance `assigned_via_url = true` and status pending
(spec sections 4.4 and 8).  Returns the response and the resulting store;
on error the store is returned unchanged. -/
def postShipments (db : Database) (p : ShipmentCreate) (sid : String) (now : Nat) :
    Except ApiError Shipment × Database :=
  if p.delivery_datetime ≤ p.pickup_datetime then
    (.error (.validation deliveryBeforePickupMsg), db)
  else if db.shipments.any (fun s => decide (s.load_id = p.load_id)) then
    (.error .conflict, db)
  else
    let s : Shipment :=
      { id := sid, load_id := p.load_id, origin := p.origin, destination := p.destination
        pickup_datetime := p.pickup_datetime, delivery_datetime := p.delivery_datetime
        equipment_type := p.equipment_type, loadboard_rate := p.loadboard_rate
        notes := p.notes, weight := p.weight, commodity_type := p.commodity_type
        num_of_pieces := p.num_of_pieces, miles := p.miles, dimensions := p.dimensions
        agreed_price := p.agreed_price, carrier_description := p.carrier_description
        status := .pending, created_at := now, updated_at := now
        assigned_via_url := true, time_per_call_seconds := none }
    (.ok s, { db with shipments := db.shipments ++ [s] })

/-- Shared body of the two update endpoints; `via` is the provenance value
the invoked endpoint writes.
Modelled from the spec: partial update by identifier; if the merged record
has status agreed it must carry agreed price and carrier description,
otherwise the call is rejected; the provenance flag is set from the
endpoint, never from the payload (spec section 4.4). -/
def patchShipmentCore (db : Database) (id : String) (u : ShipmentUpdate)
    (now : Nat) (via : Bool) : Except ApiError Shipment × Database :=
  match db.shipments.find? (fun s => decide (s.id = id)) with
  | none => (.error .notFound, db)
  | some s =>
    let m := applyUpdate s u
    if m.status = Status.agreed ∧ (m.agreed_price.isNone ∨ m.carrier_description.isNone) then
      (.error (.validation agreedFieldsMsg), db)
    else
      let r := { m with assigned_via_url := via, updated_at := now }
      (.ok r, { db with shipments := db.shipments.map (fun t => if t.id = id then r else t) })

/-- `PATCH /shipments/(id)` — the generic update endpoint, provenance
automated.  Modelled from the spec: sets `assigned_via_url = true`. -/
def patchShipment (db : Database) (id : String) (u : ShipmentUpdate) (now : Nat) :
    Except ApiError Shipment × Database :=
  patchShipmentCore db id u now true

/-- `PATCH /shipments/(id)/manual` — the manual update endpoint, provenance
manual.  Modelled from the spec: identical validation, but sets
`assigned_via_url = false`. -/
def patchShipmentManual (db : Database) (id : String) (u : ShipmentUpdate) (now : Nat) :
    Except ApiError Shipment × Database :=
  patchShipmentCore db id u now false

/-! ### Frontend API client routes, embedded from frontend/src/api.ts -/

/-- Route of `api.updateShipment` (api.ts lines 68-72):
`PATCH /shipments/(id)`. -/
def apiUpdateShipmentRoute (id : String) : String × String :=
  ("PATCH", "/shipments/" ++ id)

/-- Route of `api.updateShipmentManual` (api.ts lines 81-85):
`PATCH /shipments/(id)/manual`. -/
def apiUpdateShipmentManualRoute (id : String) : String × String :=
  ("PATCH", "/shipments/" ++ id ++ "/manual")

/-- Route used by the `useToggleShipmentStatus` mutation
(hooks/useShipments.ts lines 63-64): it calls `api.updateShipment`. -/
def useToggleShipmentStatusRoute (id : String) : String × String :=
  apiUpdateShipmentRoute id

/-! ### LoadForm client-side validation, embedded from
frontend/src/components/LoadForm.tsx -/

/-- The `validate` callback registered on the delivery field
(LoadForm.tsx lines 247-256).  Datetime-local strings compare
lexicographically, exactly as the JavaScript `<=` does; an empty string is
falsy in JavaScript, so an absent pickup or delivery skips the check.
Returns the error message, or none when the rule passes. -/
def loadFormDeliveryValidate (pickupDatetime value : String) : Option String :=
  if value = "" then none
  else if pickupDatetime ≠ "" ∧ value ≤ pickupDatetime then
    some "Delivery must be after pickup"
  else none

/-- The `required` rule on the agreed-price field (LoadForm.tsx lines
306-309): required exactly when the watched status is agreed. -/
def loadFormAgreedPriceRequired (status : Status) : Bool :=
  decide (status = Status.agreed)

/-- The `required` rule on the carrier-description field (LoadForm.tsx
lines 326-328): required exactly when the watched status is agreed. -/
def loadFormCarrierRequired (status : Status) : Bool :=
  decide (status = Status.agreed)

/-- Whether the LoadForm submission is rejected by the two agreed-status
rules: a required field with no value yields a field error. -/
def loadFormAgreedRejects (status : Status) (agreedPrice : Option Rat)
    (carrier : Option String) : Bool :=
  (loadFormAgreedPriceRequired status && agreedPrice.isNone) ||
    (loadFormCarrierRequired status && carrier.isNone)

/-! ### Free-text search -/

/-- Pattern `p` is the initial segment of `l`. -/
def charsStart : List Char → List Char → Bool
  | [], _ => true
  | _ :: _, [] => false
  | a :: as, b :: bs => a = b && charsStart as bs

/-- Pattern `p` occurs contiguously somewhere in `l`. -/
def charsSub (p : List Char) : List Char → Bool
  | [] => p.isEmpty
  | c :: rest => charsStart p (c :: rest) || charsSub p rest

/-- Case-insensitive substring test, the JavaScript
`field.toLowerCase().includes(query.toLowerCase())`, lower-casing per
character. -/
def containsCI (field query : String) : Bool :=
  charsSub (query.toList.map Char.toLower) (field.toList.map Char.toLower)

/-- The searchable fields of a load: load identifier, origin, destination,
commodity type and notes, absent optionals contributing nothing.
Modelled from the spec: the free-text query matches case-insensitively
against these five fields (spec section 4.2). -/
def qFields (s : Shipment) : List String :=
  [s.load_id, s.origin, s.destination] ++ s.commodity_type.toList ++ s.notes.toList

/-- Modelled from the spec: a load matches the free-text query when any
searchable field contains it case-insensitively (spec section 4.2). -/
def matchesQ (q : String) (s : Shipment) : Bool :=
  (qFields s).any (fun f => containsCI f q)

/-! ### Filter configuration -/

inductive SortField where
  | created_at
  | pickup_datetime
  | delivery_datetime
  | loadboard_rate
  | miles
deriving DecidableEq

inductive SortDirection where
  | asc
  | desc
deriving DecidableEq

/-- Filter configuration, embedded from the `ShipmentFilters` interface in
frontend/src/types.ts; an omitted filter is `none`. -/
structure ShipmentFilters where
  status : Option Status := none
  equipment_type : Option String := none
  commodity_type : Option String := none
  origin : Option String := none
  destination : Option String := none
  pickup_from : Option Nat := none
  pickup_to : Option Nat := none
  delivery_from : Option Nat := none
  delivery_to : Option Nat := none
  q : Option String := none
  assigned_via_url : Option Bool := none
  sort_by : SortField := .created_at
  sort_order : SortDirection := .desc
deriving DecidableEq

/-- An omitted filter always passes; a present one applies its test. -/
def optCheck {α : Type} (o : Option α) (p : α → Bool) : Bool :=
  match o with
  | none => true
  | some v => p v

/-- Modelled from the spec: all filters combine by logical AND
(spec section 4.2). -/
def matchesFilters (cfg : ShipmentFilters) (s : Shipment) : Bool :=
  optCheck cfg.status (fun st => decide (s.status = st)) &&
  optCheck cfg.equipment_type (fun e => decide (s.equipment_type = some e)) &&
  optCheck cfg.commodity_type (fun c => decide (s.commodity_type = some c)) &&
  optCheck cfg.origin (fun o => containsCI s.origin o) &&
  optCheck cfg.destination (fun d => containsCI s.destination d) &&
  optCheck cfg.pickup_from (fun t => decide (t ≤ s.pickup_datetime)) &&
  optCheck cfg.pickup_to (fun t => decide (s.pickup_datetime ≤ t)) &&
  optCheck cfg.delivery_from (fun t => decide (t ≤ s.delivery_datetime)) &&
  optCheck cfg.delivery_to (fun t => decide (s.delivery_datetime ≤ t)) &&
  optCheck cfg.q (fun q => matchesQ q s) &&
  optCheck cfg.assigned_via_url (fun b => decide (s.assigned_via_url = b))

/-- The predicate-filtered scan of the store.
Modelled from the spec: `list(predicate)` (spec sections 4.1 and 4.2). -/
def applyFilters (cfg : ShipmentFilters) (l : List Shipment) : List Shipment :=
  l.filter (matchesFilters cfg)

/-! ### Sorting -/

/-- Sort key of a load for each recognised sort field.
Modelled from the spec: a missing or null value for the sort field sorts
as the lowest possible value, zero for numeric fields and the epoch for
timestamps (spec section 4.2). -/
def sortKey (f : SortField) (s : Shipment) : Rat :=
  match f with
  | .created_at => (s.created_at : Rat)
  | .pickup_datetime => (s.pickup_datetime : Rat)
  | .delivery_datetime => (s.delivery_datetime : Rat)
  | .loadboard_rate => s.loadboard_rate.getD 0
  | .miles => s.miles.getD 0

/-- Ascending key order. -/
def keyLe (f : SortField) (a b : Shipment) : Prop :=
  sortKey f a ≤ sortKey f b

/-- Descending key order (the reversed comparator). -/
def keyGe (f : SortField) (a b : Shipment) : Prop :=
  sortKey f b ≤ sortKey f a

instance (f : SortField) : DecidableRel (keyLe f) := fun a b =>
  inferInstanceAs (Decidable (sortKey f a ≤ sortKey f b))

instance (f : SortField) : DecidableRel (keyGe f) := fun a b =>
  inferInstanceAs (Decidable (sortKey f b ≤ sortKey f a))

instance (f : SortField) : IsTotal Shipment (keyLe f) :=
  ⟨fun a b => le_total (sortKey f a) (sortKey f b)⟩

instance (f : SortField) : IsTrans Shipment (keyLe f) :=
  ⟨fun _ _ _ hab hbc => le_trans hab hbc⟩

instance (f : SortField) : IsTotal Shipment (keyGe f) :=
  ⟨fun a b => le_total (sortKey f b) (sortKey f a)⟩

instance (f : SortField) : IsTrans Shipment (keyGe f) :=
  ⟨fun _ _ _ hab hbc => le_trans hbc hab⟩

/-- Stable ascending sort of the record list by the recognised field.
Modelled from the spec: the list endpoint orders by the sort field, a
stable total order (spec section 4.2); insertion sort places an incoming
element before strictly greater keys only, so equal keys keep input
order. -/
def sortShipmentsAsc (f : SortField) (l : List Shipment) : List Shipment :=
  List.insertionSort (keyLe f) l

/-- Stable descending sort, the reversed comparator.
Modelled from the spec: `sort_direction = desc` (spec section 4.2). -/
def sortShipmentsDesc (f : SortField) (l : List Shipment) : List Shipment :=
  List.insertionSort (keyGe f) l

/-- The full list endpoint: filter then sort.
Modelled from the spec: `GET /shipments` returns records filtered and then
sorted per section 4.2. -/
def listShipments (cfg : ShipmentFilters) (db : Database) : List Shipment :=
  match cfg.sort_order with
  | .asc => sortShipmentsAsc cfg.sort_by (applyFilters cfg db.shipments)
  | .desc => sortShipmentsDesc cfg.sort_by (applyFilters cfg db.shipments)

/-! ### Statistics -/

/-- One call-type bucket of the statistics response, as the running system
produces and consumes it: total call count, count of calls whose outcome
flag is true, and total duration in seconds.
Modelled from the spec: section 4.3; the seconds-valued `total_seconds`
field is the one HeadlineStatsBar reads. -/
structure PhoneCallTypeStats where
  total_calls : Nat
  agreed_calls : Nat
  total_seconds : Rat
deriving DecidableEq

/-- The phone-call sub-object, keyed by call type, embedded from the
`PhoneCallStats` interface in frontend/src/types.ts. -/
structure PhoneCallStats where
  manual : PhoneCallTypeStats
  agent : PhoneCallTypeStats
deriving DecidableEq

/-- Per-group statistics, embedded from the `AssignmentStats` interface in
frontend/src/types.ts. -/
structure AssignmentStats where
  count : Nat
  total_agreed_price : Rat
  total_agreed_minus_loadboard : Rat
  avg_time_per_call_seconds : Rat
  phone_calls : PhoneCallStats
deriving DecidableEq

/-- The statistics response, embedded from the `ShipmentStats` interface
in frontend/src/types.ts: exactly two groups, keyed manual and url_api. -/
structure ShipmentStats where
  manual : AssignmentStats
  url_api : AssignmentStats
deriving DecidableEq

/-- Average of a value list, zero when the list is empty.
Modelled from the spec: division guarded against zero denominators
(spec section 4.3). -/
def avgOrZero (vals : List Rat) : Rat :=
  if vals.length = 0 then 0 else vals.sum / (vals.length : Rat)

/-- One call-type bucket over a call list.
Modelled from the spec: within each call-type bucket, total call count,
count of calls with outcome flag true, and total duration in seconds
(spec section 4.3). -/
def phoneBucket (t : CallType) (calls : List PhoneCall) : PhoneCallTypeStats :=
  let cs := calls.filter (fun c => decide (c.call_type = t))
  { total_calls := cs.length
    agreed_calls := (cs.filter (fun c => c.agreed)).length
    total_seconds := (cs.map (fun c => c.seconds)).sum }

/-- The phone calls belonging to a group of loads.
Modelled from the spec: each group's phone calls (spec section 4.3). -/
def callsOfGroup (group : List Shipment) (calls : List PhoneCall) : List PhoneCall :=
  calls.filter (fun c => group.any (fun s => decide (s.id = c.shipment_id)))

/-- Per-group aggregation.
Modelled from the spec: record count; sum of agreed price across records
that have one; sum of agreed price minus listed rate across records that
have both; average per-call duration across records with a defined value,
zero when none has one; and the per-call-type buckets (spec section 4.3). -/
def groupStats (group : List Shipment) (calls : List PhoneCall) : AssignmentStats :=
  let gcalls := callsOfGroup group calls
  { count := group.length
    total_agreed_price := (group.filterMap (fun s => s.agreed_price)).sum
    total_agreed_minus_loadboard :=
      (group.filterMap (fun s =>
        match s.agreed_price, s.loadboard_rate with
        | some a, some b => some (a - b)
        | _, _ => none)).sum
    avg_time_per_call_seconds :=
      avgOrZero (group.filterMap (fun s => s.time_per_call_seconds))
    phone_calls := { manual := phoneBucket .manual gcalls, agent := phoneBucket .agent gcalls } }

/-- `GET /shipments/stats`.
Modelled from the spec: applies the filters, then partitions the records
into exactly two groups by the provenance flag, false to manual and true
to url_api, and aggregates each (spec section 4.3). -/
def shipmentStats (cfg : ShipmentFilters) (db : Database) : ShipmentStats :=
  let recs := applyFilters cfg db.shipments
  { manual := groupStats (recs.filter (fun s => !s.assigned_via_url)) db.phone_calls
    url_api := groupStats (recs.filter (fun s => s.assigned_via_url)) db.phone_calls }

/-! ### Display-layer computations embedded from the frontend source -/

/-- JavaScript `Math.round`: round half toward positive infinity. -/
def jsRound (x : Rat) : Int := ⌊x + 1 / 2⌋

/-- Minutes figure shown for a phone call by AllPhoneCallsDialog.tsx line
183: `Math.round(call.seconds / 60 * 10) / 10`, consuming the record's
duration as seconds. -/
def dialogMinutesShown (secs : Rat) : Rat :=
  (jsRound (secs / 60 * 10) : Rat) / 10

/-- Argument HeadlineStatsBar passes to `formatMinutes`
(components/HeadlineStatsBar.tsx line 113): `phoneStats.total_seconds / 60`,
consuming the bucket duration as seconds. -/
def headlineMinutesArg (total_secs : Rat) : Rat := total_secs / 60

/-- Success-rate figure of HeadlineStatsBar.tsx lines 137-140: the ratio
is only formed when `total_calls > 0`, otherwise 0 is shown. -/
def headlineSuccessRate (b : PhoneCallTypeStats) : Rat :=
  if b.total_calls > 0 then (b.agreed_calls : Rat) / (b.total_calls : Rat) * 100 else 0

/-- Average loadboard rate of LoadStatsBar.tsx lines 17-19: guarded by
`shipments.length > 0`, otherwise 0. -/
def loadStatsAvgRate (shipments : List Shipment) : Rat :=
  if shipments.length > 0 then
    (shipments.map (fun s => s.loadboard_rate.getD 0)).sum / (shipments.length : Rat)
  else 0

/-! ### Interface field names embedded from the TypeScript declarations -/

/-- Field names of the `PhoneCall` interface, frontend/src/types.ts lines
105-115.  The duration field it declares is named `minutes`. -/
def phoneCallInterfaceFields : List String :=
  ["id", "shipment_id", "agreed", "minutes", "call_type", "call_id",
   "sentiment", "notes", "created_at"]

/-- Field names of the `PhoneCallCreate` interface, frontend/src/types.ts
lines 117-124. -/
def phoneCallCreateInterfaceFields : List String :=
  ["agreed", "minutes", "call_type", "call_id", "sentiment", "notes"]

/-- Field names of the `PhoneCallTypeStats` interface, frontend/src/types.ts
lines 126-130.  The duration field it declares is named `total_minutes`. -/
def phoneCallTypeStatsInterfaceFields : List String :=
  ["total_calls", "agreed_calls", "total_minutes"]

/-- Keys of the phone-call object LoadForm.tsx builds and submits
(lines 34-41): the duration is written into a field named `seconds`. -/
def loadFormPhoneCallKeys : List String :=
  ["agreed", "seconds", "call_type", "sentiment", "notes", "call_id"]

/-- Name of the duration field LoadForm.tsx writes (line 359,
`setPhoneCallData(..., seconds: parseFloat(e.target.value) ...)`). -/
def loadFormDurationFieldWritten : String := "seconds"

/-- Name of the duration field AllPhoneCallsDialog.tsx reads (line 183,
`call.seconds / 60`). -/
def dialogDurationFieldRead : String := "seconds"

/-- Name of the bucket duration field HeadlineStatsBar.tsx reads (line 113,
`card.phoneStats.total_seconds / 60`). -/
def headlineDurationFieldRead : String := "total_seconds"

/-! ### The status-toggle mutation, embedded from
frontend/src/hooks/useShipments.ts lines 59-99 -/

/-- One entry of the React Query cache: a query key and its data, which is
a shipment array for shipment-list queries and something else (`none`)
otherwise. -/
structure CacheEntry where
  key : Nat
  data : Option (List Shipment)
deriving DecidableEq

/-- The optimistic update applied to one cached array (lines 77-79):
the targeted shipment gets the new status, others are unchanged. -/
def setStatusInList (id : String) (st : Status) (l : List Shipment) : List Shipment :=
  l.map (fun s => if s.id = id then { s with status := st } else s)

/-- `onMutate` (lines 65-85): every array-valued query is optimistically
rewritten; the pre-mutation data of exactly those queries is saved. -/
def toggleOnMutate (id : String) (st : Status) (cache : List CacheEntry) :
    List CacheEntry × List (Nat × List Shipment) :=
  (cache.map (fun e =>
      match e.data with
      | some d => { key := e.key, data := some (setStatusInList id st d) }
      | none => e),
   cache.filterMap (fun e => e.data.map (fun d => (e.key, d))))

/-- `queryClient.setQueryData` on our cache model: replaces the data of
every entry with the given key. -/
def setQueryData (k : Nat) (d : List Shipment) (cache : List CacheEntry) :
    List CacheEntry :=
  cache.map (fun e => if e.key = k then { key := e.key, data := some d } else e)

/-- `onError` (lines 86-93): each saved (queryKey, data) pair is written
back in order. -/
def toggleOnError (prev : List (Nat × List Shipment)) (cache : List CacheEntry) :
    List CacheEntry :=
  prev.foldl (fun c kd => setQueryData kd.1 kd.2 c) cache

/-! ### Helper lemmas -/

theorem charsStart_iff (p : List Char) :
    ∀ l, charsStart p l = true ↔ ∃ post, l = p ++ post := by
  induction p with
  | nil => intro l; simp [charsStart]
  | cons a as ih =>
    intro l
    cases l with
    | nil => simp [charsStart]
    | cons b bs =>
      simp only [charsStart, Bool.and_eq_true, decide_eq_true_eq, ih]
      constructor
      · rintro ⟨rfl, post, rfl⟩
        exact ⟨post, rfl⟩
      · rintro ⟨post, h⟩
        injection h with h1 h2
        subst h1
        exact ⟨rfl, post, h2⟩

theorem charsSub_iff (p : List Char) :
    ∀ l, charsSub p l = true ↔ ∃ pre post, l = pre ++ p ++ post := by
  intro l
  induction l with
  | nil =>
    simp only [charsSub, List.isEmpty_iff]
    constructor
    · rintro rfl
      exact ⟨[], [], rfl⟩
    · rintro ⟨pre, post, h⟩
      rcases List.append_eq_nil.mp h.symm with ⟨h1, -⟩
      exact (List.append_eq_nil.mp h1).2
  | cons c rest ih =>
    simp only [charsSub, Bool.or_eq_true, charsStart_iff, ih]
    constructor
    · rintro (⟨post, h⟩ | ⟨pre, post, h⟩)
      · exact ⟨[], post, by simpa using h⟩
      · exact ⟨c :: pre, post, by simp [h]⟩
    · rintro ⟨pre, post, h⟩
      cases pre with
      | nil => exact Or.inl ⟨post, by simpa using h⟩
      | cons d pre =>
        injection h with h1 h2
        exact Or.inr ⟨pre, post, by simpa using h2⟩

/-- The free-text query is a case-insensitive substring of the field. -/
def IsSubstrCI (q f : String) : Prop :=
  ∃ pre post, f.toList.map Char.toLower = pre ++ q.toList.map Char.toLower ++ post

theorem containsCI_iff (f q : String) : containsCI f q = true ↔ IsSubstrCI q f :=
  charsSub_iff _ _

theorem matchesQ_iff (q : String) (s : Shipment) :
    matchesQ q s = true ↔ ∃ f ∈ qFields s, IsSubstrCI q f := by
  simp [matchesQ, List.any_eq_true, containsCI_iff]

theorem matchesFilters_qOnly (q : String) (s : Shipment) :
    matchesFilters { q := some q } s = matchesQ q s := by
  simp [matchesFilters, optCheck]

theorem length_filter_not_add {α : Type} (p : α → Bool) (l : List α) :
    (l.filter (fun a => !(p a))).length + (l.filter p).length = l.length := by
  induction l with
  | nil => rfl
  | cons a l ih => cases h : p a <;> simp [List.filter_cons, h] <;> omega

theorem length_filter_callType (cs : List PhoneCall) :
    (cs.filter (fun c => decide (c.call_type = CallType.manual))).length +
      (cs.filter (fun c => decide (c.call_type = CallType.agent))).length = cs.length := by
  induction cs with
  | nil => rfl
  | cons c rest ih => cases h : c.call_type <;> simp [List.filter_cons, h] <;> omega

theorem filterMap_filter_isSome (l : List Shipment) :
    (l.filter (fun s => s.time_per_call_seconds.isSome)).filterMap
        (fun s => s.time_per_call_seconds) =
      l.filterMap (fun s => s.time_per_call_seconds) := by
  induction l with
  | nil => rfl
  | cons s rest ih =>
    cases h : s.time_per_call_seconds <;>
      simp [List.filter_cons, List.filterMap_cons, h, ih]

theorem filter_orderedInsert {α : Type} (r : α → α → Prop) [DecidableRel r]
    (key : α → Rat) (hr : ∀ a b, ¬r a b → key a ≠ key b) (k : Rat) (a : α) :
    ∀ l : List α,
      (List.orderedInsert r a l).filter (fun x => decide (key x = k)) =
        if key a = k then a :: l.filter (fun x => decide (key x = k))
        else l.filter (fun x => decide (key x = k)) := by
  intro l
  induction l with
  | nil =>
    by_cases ha : key a = k <;> simp [List.orderedInsert, List.filter_cons, ha]
  | cons b bs ih =>
    by_cases hab : r a b
    · rw [List.orderedInsert, if_pos hab]
      by_cases ha : key a = k <;> simp [List.filter_cons, ha]
    · rw [List.orderedInsert, if_neg hab]
      by_cases ha : key a = k
      · have hb : key b ≠ k := fun h => hr a b hab (ha.trans h.symm)
        simp [List.filter_cons, hb, ih, ha]
      · simp [List.filter_cons, ih, ha]

theorem filter_insertionSort {α : Type} (r : α → α → Prop) [DecidableRel r]
    (key : α → Rat) (hr : ∀ a b, ¬r a b → key a ≠ key b) (k : Rat) :
    ∀ l : List α,
      (List.insertionSort r l).filter (fun x => decide (key x = k)) =
        l.filter (fun x => decide (key x = k)) := by
  intro l
  induction l with
  | nil => rfl
  | cons a l ih =>
    rw [List.insertionSort, filter_orderedInsert r key hr k a _, ih]
    by_cases ha : key a = k <;> simp [List.filter_cons, ha]

theorem keyLe_not_imp_ne (f : SortField) (a b : Shipment) (h : ¬keyLe f a b) :
    sortKey f a ≠ sortKey f b :=
  (ne_of_lt (lt_of_not_le h)).symm

theorem keyGe_not_imp_ne (f : SortField) (a b : Shipment) (h : ¬keyGe f a b) :
    sortKey f a ≠ sortKey f b :=
  ne_of_lt (lt_of_not_le h)

/-! ### Rollback machinery for the status-toggle mutation -/

/-- The cumulative effect of the rollback writes on a single cache entry. -/
def applyPairs (ps : List (Nat × List Shipment)) (e : CacheEntry) : CacheEntry :=
  ps.foldl (fun x kd => if x.key = kd.1 then { key := x.key, data := some kd.2 } else x) e

theorem toggleOnError_cons_entry (ps : List (Nat × List Shipment)) :
    ∀ (e : CacheEntry) (cs : List CacheEntry),
      toggleOnError ps (e :: cs) = applyPairs ps e :: toggleOnError ps cs := by
  induction ps with
  | nil => intro e cs; rfl
  | cons kd ps ih =>
    intro e cs
    show toggleOnError ps (setQueryData kd.1 kd.2 (e :: cs)) = _
    rw [show setQueryData kd.1 kd.2 (e :: cs) =
          (if e.key = kd.1 then { key := e.key, data := some kd.2 } else e) ::
            setQueryData kd.1 kd.2 cs from rfl,
        ih]
    rfl

theorem applyPairs_of_not_mem (e : CacheEntry) :
    ∀ ps : List (Nat × List Shipment), e.key ∉ ps.map Prod.fst → applyPairs ps e = e := by
  intro ps
  induction ps with
  | nil => intro _; rfl
  | cons kd ps ih =>
    intro h
    simp only [List.map_cons, List.mem_cons, not_or] at h
    show applyPairs ps (if e.key = kd.1 then _ else e) = e
    rw [if_neg h.1]
    exact ih h.2

theorem applyPairs_restores (k : Nat) (d : List Shipment) :
    ∀ (ps : List (Nat × List Shipment)) (e : CacheEntry), e.key = k →
      (ps.map Prod.fst).Nodup → (k, d) ∈ ps →
      applyPairs ps e = { key := k, data := some d } := by
  intro ps
  induction ps with
  | nil => intro e _ _ hmem; exact absurd hmem (List.not_mem_nil _)
  | cons kd ps ih =>
    intro e hek hnd hmem
    simp only [List.map_cons, List.nodup_cons] at hnd
    rcases List.mem_cons.mp hmem with heq | hmem2
    · subst heq
      show applyPairs ps (if e.key = (k, d).1 then { key := e.key, data := some (k, d).2 } else e) = _
      rw [if_pos hek]
      have hfix : ({ key := e.key, data := some (k, d).2 } : CacheEntry) =
          { key := k, data := some d } := by rw [hek]
      rw [hfix]
      refine applyPairs_of_not_mem _ ps ?_
      simpa using hnd.1
    · have hk1 : kd.1 ≠ k := by
        intro h
        exact hnd.1 (h ▸ List.mem_map_of_mem Prod.fst hmem2)
      show applyPairs ps (if e.key = kd.1 then _ else e) = _
      rw [if_neg (by rw [hek]; exact fun h => hk1 h.symm)]
      exact ih e hek hnd.2 hmem2

theorem setQueryData_of_not_mem (k : Nat) (d : List Shipment) :
    ∀ cs : List CacheEntry, k ∉ cs.map CacheEntry.key → setQueryData k d cs = cs := by
  intro cs
  induction cs with
  | nil => intro _; rfl
  | cons e cs ih =>
    intro h
    simp only [List.map_cons, List.mem_cons, not_or] at h
    show (if e.key = k then _ else e) :: setQueryData k d cs = e :: cs
    rw [if_neg (fun hh => h.1 hh.symm), ih h.2]

theorem toggleOnMutate_keys (id : String) (st : Status) :
    ∀ cache : List CacheEntry,
      ((toggleOnMutate id st cache).1).map CacheEntry.key = cache.map CacheEntry.key := by
  intro cache
  induction cache with
  | nil => rfl
  | cons e cs ih =>
    cases h : e.data <;> simp [toggleOnMutate, h] <;>
      simpa [toggleOnMutate] using ih

theorem toggleOnMutate_prev_keys (id : String) (st : Status) :
    ∀ cache : List CacheEntry,
      List.Sublist (((toggleOnMutate id st cache).2).map Prod.fst)
        (cache.map CacheEntry.key) := by
  intro cache
  induction cache with
  | nil => exact List.Sublist.refl _
  | cons e cs ih =>
    cases h : e.data with
    | none =>
      refine List.Sublist.trans ?_ (List.sublist_cons_self _ _)
      simpa [toggleOnMutate, h] using ih
    | some d =>
      have heq : ((toggleOnMutate id st (e :: cs)).2).map Prod.fst =
          e.key :: ((toggleOnMutate id st cs).2).map Prod.fst := by
        simp [toggleOnMutate, h]
      rw [heq, List.map_cons]
      exact List.Sublist.cons₂ _ ih

theorem rollback_restores (id : String) (st : Status) :
    ∀ cache : List CacheEntry, (cache.map CacheEntry.key).Nodup →
      toggleOnError (toggleOnMutate id st cache).2 (toggleOnMutate id st cache).1 = cache := by
  intro cache
  induction cache with
  | nil => intro _; rfl
  | cons e cs ih =>
    intro hnd
    simp only [List.map_cons, List.nodup_cons] at hnd
    have hsubkeys : ∀ x, x ∈ ((toggleOnMutate id st cs).2).map Prod.fst →
        x ∈ cs.map CacheEntry.key :=
      fun x hx => (toggleOnMutate_prev_keys id st cs).subset hx
    have hndprev : (((toggleOnMutate id st cs).2).map Prod.fst).Nodup :=
      hnd.2.sublist (toggleOnMutate_prev_keys id st cs)
    cases h : e.data with
    | none =>
      have hm : (toggleOnMutate id st (e :: cs)).1 = e :: (toggleOnMutate id st cs).1 := by
        simp [toggleOnMutate, h]
      have hp : (toggleOnMutate id st (e :: cs)).2 = (toggleOnMutate id st cs).2 := by
        simp [toggleOnMutate, h]
      rw [hm, hp, toggleOnError_cons_entry]
      rw [applyPairs_of_not_mem e _ (fun hx => hnd.1 (hsubkeys _ hx))]
      rw [ih hnd.2]
    | some d =>
      have hm : (toggleOnMutate id st (e :: cs)).1 =
          { key := e.key, data := some (setStatusInList id st d) } ::
            (toggleOnMutate id st cs).1 := by
        simp [toggleOnMutate, h]
      have hp : (toggleOnMutate id st (e :: cs)).2 =
          (e.key, d) :: (toggleOnMutate id st cs).2 := by
        simp [toggleOnMutate, h]
      rw [hm, hp, toggleOnError_cons_entry]
      have hhead : applyPairs ((e.key, d) :: (toggleOnMutate id st cs).2)
          { key := e.key, data := some (setStatusInList id st d) } =
          { key := e.key, data := some d } := by
        refine applyPairs_restores e.key d _ _ rfl ?_ (List.mem_cons_self _ _)
        simp only [List.map_cons, List.nodup_cons]
        exact ⟨fun hx => hnd.1 (hsubkeys _ hx), hndprev⟩
      rw [hhead]
      have htail : toggleOnError ((e.key, d) :: (toggleOnMutate id st cs).2)
          (toggleOnMutate id st cs).1 =
          toggleOnError ((toggleOnMutate id st cs).2) (toggleOnMutate id st cs).1 := by
        show toggleOnError ((toggleOnMutate id st cs).2)
            (setQueryData e.key d (toggleOnMutate id st cs).1) = _
        rw [setQueryData_of_not_mem e.key d _ (by
          rw [toggleOnMutate_keys]
          exact hnd.1)]
      rw [htail, ih hnd.2]
      have : e = { key := e.key, data := some d } := by
        cases e
        simp_all
      rw [← this]

theorem postShipments_flag (db : Database) (p : ShipmentCreate) (sid : String)
    (now : Nat) (s : Shipment) (h : (postShipments db p sid now).1 = .ok s) :
    s.assigned_via_url = true := by
  simp only [postShipments] at h
  split at h
  · exact Except.noConfusion h
  · split at h
    · exact Except.noConfusion h
    · exact Except.ok.inj h ▸ rfl

theorem patchShipmentCore_flag (db : Database) (id : String) (u : ShipmentUpdate)
    (now : Nat) (via : Bool) (s : Shipment)
    (h : (patchShipmentCore db id u now via).1 = .ok s) :
    s.assigned_via_url = via := by
  simp only [patchShipmentCore] at h
  split at h
  · exact Except.noConfusion h
  · split at h
    · exact Except.noConfusion h
    · exact Except.ok.inj h ▸ rfl

/-! ### Claim theorems -/

/-- C1: a load created via the generic create endpoint has
`assigned_via_url = true`; any successful update through the manual
endpoint yields `assigned_via_url = false`; any successful update through
the generic endpoint yields `assigned_via_url = true`.  The stores and
payloads are universally quantified, so the flag depends only on which
endpoint was invoked, never on caller-supplied payload data, and the
create / manual-update / generic-update sequence of the claim follows by
applying the three parts in turn. -/
theorem provenance_set_by_endpoint
    (dbA dbB dbC : Database) (p : ShipmentCreate) (sid idB idC : String)
    (nA nB nC : Nat) (uB uC : ShipmentUpdate) (s1 s2 s3 : Shipment)
    (h1 : (postShipments dbA p sid nA).1 = .ok s1)
    (h2 : (patchShipmentManual dbB idB uB nB).1 = .ok s2)
    (h3 : (patchShipment dbC idC uC nC).1 = .ok s3) :
    s1.assigned_via_url = true ∧ s2.assigned_via_url = false ∧
      s3.assigned_via_url = true :=
  ⟨postShipments_flag dbA p sid nA s1 h1,
   patchShipmentCore_flag dbB idB uB nB false s2 h2,
   patchShipmentCore_flag dbC idC uC nC true s3 h3⟩

/-- C2: for every filter configuration and store, the statistics response
consists of exactly the two groups keyed `manual` (provenance flag false)
and `url_api` (provenance flag true), each carrying count,
total_agreed_price, total_agreed_minus_loadboard,
avg_time_per_call_seconds and the per-call-type phone_calls sub-object;
the two groups partition the filtered records, and within each group the
manual and agent buckets partition that group's phone calls. -/
theorem stats_shape (cfg : ShipmentFilters) (db : Database) :
    (shipmentStats cfg db).manual =
      groupStats ((applyFilters cfg db.shipments).filter fun s => !s.assigned_via_url)
        db.phone_calls
    ∧ (shipmentStats cfg db).url_api =
      groupStats ((applyFilters cfg db.shipments).filter fun s => s.assigned_via_url)
        db.phone_calls
    ∧ (shipmentStats cfg db).manual.count + (shipmentStats cfg db).url_api.count
        = (applyFilters cfg db.shipments).length
    ∧ (shipmentStats cfg db).manual.phone_calls.manual.total_calls
        + (shipmentStats cfg db).manual.phone_calls.agent.total_calls
        = (callsOfGroup ((applyFilters cfg db.shipments).filter fun s => !s.assigned_via_url)
            db.phone_calls).length
    ∧ (shipmentStats cfg db).url_api.phone_calls.manual.total_calls
        + (shipmentStats cfg db).url_api.phone_calls.agent.total_calls
        = (callsOfGroup ((applyFilters cfg db.shipments).filter fun s => s.assigned_via_url)
            db.phone_calls).length := by
  refine ⟨rfl, rfl, ?_, ?_, ?_⟩
  · exact length_filter_not_add (fun s => s.assigned_via_url) (applyFilters cfg db.shipments)
  · exact length_filter_callType _
  · exact length_filter_callType _

/-- C3: on any write path (`via` covers both update endpoints), if the
merged candidate record has status agreed while agreed price or carrier
description is absent — neither already stored nor supplied — the call is
rejected and the store unchanged; with both present the write succeeds;
with status pending the agreed-fields rule imposes nothing.  The same
rule is enforced client-side by LoadForm: a field is required exactly
when status is agreed. -/
theorem agreed_requires_fields
    (db : Database) (id : String) (u : ShipmentUpdate) (now : Nat) (via : Bool)
    (s : Shipment) (st : Status) (pr : Option Rat) (cd : Option String)
    (hfind : db.shipments.find? (fun t => decide (t.id = id)) = some s) :
    ((applyUpdate s u).status = Status.agreed ∧
        ((applyUpdate s u).agreed_price = none ∨ (applyUpdate s u).carrier_description = none) →
      patchShipmentCore db id u now via = (.error (.validation agreedFieldsMsg), db))
    ∧ ((applyUpdate s u).agreed_price.isSome ∧ (applyUpdate s u).carrier_description.isSome →
      (patchShipmentCore db id u now via).1 =
        .ok { applyUpdate s u with assigned_via_url := via, updated_at := now })
    ∧ ((applyUpdate s u).status = Status.pending →
      (patchShipmentCore db id u now via).1 =
        .ok { applyUpdate s u with assigned_via_url := via, updated_at := now })
    ∧ (loadFormAgreedRejects st pr cd = true ↔
        st = Status.agreed ∧ (pr = none ∨ cd = none)) := by
  refine ⟨?_, ?_, ?_, ?_⟩
  · rintro ⟨h1, h2⟩
    simp only [patchShipmentCore, hfind]
    rw [if_pos]
    refine ⟨h1, ?_⟩
    rcases h2 with h2 | h2
    · exact Or.inl (Option.isNone_iff_eq_none.mpr h2)
    · exact Or.inr (Option.isNone_iff_eq_none.mpr h2)
  · rintro ⟨hp, hc⟩
    simp only [patchShipmentCore, hfind]
    rw [if_neg]
    rintro ⟨-, h | h⟩
    · rw [Option.isNone_iff_eq_none] at h
      simp [h] at hp
    · rw [Option.isNone_iff_eq_none] at h
      simp [h] at hc
  · intro hpend
    simp only [patchShipmentCore, hfind]
    rw [if_neg]
    rintro ⟨h, -⟩
    rw [hpend] at h
    exact Status.noConfusion h
  · simp only [loadFormAgreedRejects, loadFormAgreedPriceRequired, loadFormCarrierRequired,
      Bool.or_eq_true, Bool.and_eq_true, decide_eq_true_eq, Option.isNone_iff_eq_none]
    tauto

/-- C4: a creation whose delivery timestamp is at or before its pickup
timestamp is rejected with the delivery-validation error and the store is
returned unchanged, so nothing is persisted; a creation with delivery
strictly after pickup is never rejected by that rule.  The client-side
`validate` rule of LoadForm fires, for non-empty inputs, exactly when the
delivery string is at or before the pickup string. -/
theorem create_rejects_delivery_before_pickup
    (db : Database) (p : ShipmentCreate) (sid : String) (now : Nat)
    (pk dl : String) (hpk : pk ≠ "") (hdl : dl ≠ "") :
    (p.delivery_datetime ≤ p.pickup_datetime →
      postShipments db p sid now = (.error (.validation deliveryBeforePickupMsg), db))
    ∧ (p.pickup_datetime < p.delivery_datetime →
      (postShipments db p sid now).1 ≠ .error (.validation deliveryBeforePickupMsg))
    ∧ (loadFormDeliveryValidate pk dl = some "Delivery must be after pickup" ↔ dl ≤ pk) := by
  refine ⟨?_, ?_, ?_⟩
  · intro h
    simp only [postShipments]
    rw [if_pos h]
  · intro h
    simp only [postShipments]
    rw [if_neg (not_le_of_lt h)]
    split
    · simp
    · simp
  · rw [loadFormDeliveryValidate, if_neg hdl]
    by_cases hle : dl ≤ pk
    · rw [if_pos ⟨hpk, hle⟩]
      simp [hle]
    · rw [if_neg (fun hh => hle hh.2)]
      simp [hle]

/-- C5: over an empty group every count and sum is 0 and the average is 0
rather than a division error; a record without a per-call duration does
not enter the average (appending it leaves the average unchanged, and
restricting a group to the records with a value present leaves it
unchanged); the display-layer ratios are likewise guarded: the headline
success rate of a bucket with zero calls is 0 and the average loadboard
rate of an empty list is 0. -/
theorem stats_zero_guards
    (l : List Shipment) (calls : List PhoneCall) (s : Shipment) (b : PhoneCallTypeStats)
    (hs : s.time_per_call_seconds = none) (hb : b.total_calls = 0) :
    groupStats [] [] =
      { count := 0, total_agreed_price := 0, total_agreed_minus_loadboard := 0,
        avg_time_per_call_seconds := 0,
        phone_calls := { manual := ⟨0, 0, 0⟩, agent := ⟨0, 0, 0⟩ } }
    ∧ (groupStats (l ++ [s]) calls).avg_time_per_call_seconds
        = (groupStats l calls).avg_time_per_call_seconds
    ∧ (groupStats (l.filter fun t => t.time_per_call_seconds.isSome) calls).avg_time_per_call_seconds
        = (groupStats l calls).avg_time_per_call_seconds
    ∧ headlineSuccessRate b = 0
    ∧ loadStatsAvgRate [] = 0 := by
  refine ⟨rfl, ?_, ?_, ?_, rfl⟩
  · simp [groupStats, List.filterMap_append, List.filterMap_cons, hs]
  · simp [groupStats, filterMap_filter_isSome]
  · rw [headlineSuccessRate, if_neg]
    simp [hb]

/-- C6: each call-type bucket computed for a group carries exactly the
total number of calls of that type, the number of those with the outcome
flag true, and the total duration in seconds, and the display layer
consumes that duration as seconds (`total_seconds / 60` minutes).
However, the claim fails against the declared TypeScript interface: the
`PhoneCallTypeStats` declaration in frontend/src/types.ts names its
duration field `total_minutes`, while the display layer reads a field
named `total_seconds`, which the declared interface does not contain. -/
theorem phone_bucket_contents_and_field_mismatch (t : CallType) (cs : List PhoneCall) :
    (phoneBucket t cs).total_calls = (cs.filter fun c => decide (c.call_type = t)).length
    ∧ (phoneBucket t cs).agreed_calls
        = ((cs.filter fun c => decide (c.call_type = t)).filter fun c => c.agreed).length
    ∧ (phoneBucket t cs).total_seconds
        = ((cs.filter fun c => decide (c.call_type = t)).map fun c => c.seconds).sum
    ∧ headlineMinutesArg (phoneBucket t cs).total_seconds
        = (phoneBucket t cs).total_seconds / 60
    ∧ headlineDurationFieldRead = "total_seconds"
    ∧ phoneCallTypeStatsInterfaceFields = ["total_calls", "agreed_calls", "total_minutes"]
    ∧ headlineDurationFieldRead ∉ phoneCallTypeStatsInterfaceFields :=
  ⟨rfl, rfl, rfl, rfl, rfl, rfl, by decide⟩

/-- C7: the phone-call duration that flows through the running system is
seconds-valued: LoadForm writes it into a field named `seconds` and
AllPhoneCallsDialog reads `call.seconds`, dividing by 60 to show minutes
(90 seconds display as 1.5 minutes).  However, the claim fails against
the declared record type: the `PhoneCall` interface in
frontend/src/types.ts names its duration field `minutes`, so the field
the writers and readers use is not the field the type declares. -/
theorem phone_call_duration_field_mismatch :
    loadFormDurationFieldWritten = "seconds"
    ∧ dialogDurationFieldRead = "seconds"
    ∧ loadFormDurationFieldWritten ∈ loadFormPhoneCallKeys
    ∧ "minutes" ∈ phoneCallInterfaceFields
    ∧ dialogDurationFieldRead ∉ phoneCallInterfaceFields
    ∧ loadFormDurationFieldWritten ∉ phoneCallCreateInterfaceFields
    ∧ dialogMinutesShown 90 = 3 / 2 :=
  ⟨rfl, rfl, by decide, by decide, by decide, by decide,
   by norm_num [dialogMinutesShown, jsRound]⟩

/-- C8: for every record list and free-text query, the q-filter keeps a
record exactly when the query is a case-insensitive substring of at least
one of its load identifier, origin, destination, commodity type or notes;
a query matching no record yields the empty list, not an error. -/
theorem free_text_filter_exact (l : List Shipment) (q : String) (s : Shipment) :
    (s ∈ applyFilters { q := some q } l ↔ s ∈ l ∧ ∃ f ∈ qFields s, IsSubstrCI q f)
    ∧ (l.all (fun t => !matchesQ q t) = true → applyFilters { q := some q } l = []) := by
  constructor
  · rw [applyFilters, List.mem_filter, matchesFilters_qOnly, matchesQ_iff]
  · intro h
    rw [applyFilters, List.filter_eq_nil_iff]
    intro a ha
    rw [matchesFilters_qOnly]
    have := List.all_eq_true.mp h a ha
    simp only [Bool.not_eq_true'] at this
    simp [this]

/-- C9: for every recognised sort field, ascending sort returns a
permutation of the input whose key sequence is non-decreasing, equal keys
keeping their relative input order (the sub-list at any fixed key value is
unchanged); descending sort is the same contract for the reversed key
order; and a record with a missing numeric sort value carries the lowest
key, zero. -/
theorem sort_contract (f : SortField) (l : List Shipment) (k : Rat) (s : Shipment)
    (hrate : s.loadboard_rate = none) (hmiles : s.miles = none) :
    List.Perm (sortShipmentsAsc f l) l
    ∧ (sortShipmentsAsc f l).Sorted (keyLe f)
    ∧ (sortShipmentsAsc f l).filter (fun t => decide (sortKey f t = k))
        = l.filter (fun t => decide (sortKey f t = k))
    ∧ List.Perm (sortShipmentsDesc f l) l
    ∧ (sortShipmentsDesc f l).Sorted (keyGe f)
    ∧ (sortShipmentsDesc f l).filter (fun t => decide (sortKey f t = k))
        = l.filter (fun t => decide (sortKey f t = k))
    ∧ sortKey SortField.loadboard_rate s = 0
    ∧ sortKey SortField.miles s = 0 := by
  refine ⟨List.perm_insertionSort _ l, List.sorted_insertionSort _ l,
    filter_insertionSort (keyLe f) (sortKey f) (keyLe_not_imp_ne f) k l,
    List.perm_insertionSort _ l, List.sorted_insertionSort _ l,
    filter_insertionSort (keyGe f) (sortKey f) (keyGe_not_imp_ne f) k l,
    ?_, ?_⟩
  · simp [sortKey, hrate]
  · simp [sortKey, hmiles]

/-- C10: the status-toggle hook issues its mutation through the generic
`PATCH /shipments/(id)` route of `api.updateShipment`, not the manual
route; and when the mutation fails, the `onError` rollback restores every
cached shipment-list query to its pre-mutation data, leaving the cache
exactly as it was. -/
theorem toggle_generic_route_and_rollback
    (id i : String) (st : Status) (cache : List CacheEntry)
    (hkeys : (cache.map CacheEntry.key).Nodup) :
    useToggleShipmentStatusRoute i = ("PATCH", "/shipments/" ++ i)
    ∧ useToggleShipmentStatusRoute i ≠ apiUpdateShipmentManualRoute i
    ∧ toggleOnError (toggleOnMutate id st cache).2 (toggleOnMutate id st cache).1
        = cache := by
  refine ⟨rfl, ?_, rollback_restores id st cache hkeys⟩
  intro h
  have hlen := congrArg (fun x => x.2.length) h
  simp only [useToggleShipmentStatusRoute, apiUpdateShipmentRoute,
    apiUpdateShipmentManualRoute, String.length_append] at hlen
  have h7 : ("/manual" : String).length = 7 := rfl
  omega

/-! ### Concrete witness data -/

def demoDb0 : Database := ⟨[], []⟩

def demoCreatePayload : ShipmentCreate :=
  { load_id := "LD-1", origin := "Chicago", destination := "Denver",
    pickup_datetime := 100, delivery_datetime := 200 }

def demoPost : Except ApiError Shipment × Database :=
  postShipments demoDb0 demoCreatePayload "u1" 0

def demoS1 : Shipment := demoPost.1.toOption.getD default

def demoAgreeUpdate : ShipmentUpdate :=
  { status := some .agreed, agreed_price := some 500,
    carrier_description := some ("ACME") }

def demoManualPatch : Except ApiError Shipment × Database :=
  patchShipmentManual demoPost.2 "u1" demoAgreeUpdate 1

def demoS2 : Shipment := demoManualPatch.1.toOption.getD default

def demoGenericPatch : Except ApiError Shipment × Database :=
  patchShipment demoManualPatch.2 "u1" {} 2

def demoS3 : Shipment := demoGenericPatch.1.toOption.getD default

def demoPendingShipment : Shipment :=
  { id := "u1", load_id := "l1", origin := "ab", destination := "cd",
    pickup_datetime := 100, delivery_datetime := 200 }

def demoDbPending : Database := ⟨[demoPendingShipment], []⟩

def demoBadUpdate : ShipmentUpdate := { status := some .agreed }

def demoBadCreate : ShipmentCreate :=
  { load_id := "LD-2", origin := "A", destination := "B",
    pickup_datetime := 200, delivery_datetime := 100 }

def demoCache : List CacheEntry :=
  [⟨1, some [demoPendingShipment]⟩, ⟨2, none⟩]

/-! ### Witnesses -/

/-- Witness for C1: the spec scenario run concretely — create, then a
manual update, then a generic update of the same load. -/
theorem provenance_set_by_endpoint_witness :
    demoS1.assigned_via_url = true ∧ demoS2.assigned_via_url = false ∧
      demoS3.assigned_via_url = true :=
  provenance_set_by_endpoint demoDb0 demoPost.2 demoManualPatch.2 demoCreatePayload
    "u1" "u1" "u1" 0 1 2 demoAgreeUpdate {} demoS1 demoS2 demoS3 rfl rfl rfl

/-- Witness for C3: setting status agreed on a stored pending load without
supplying agreed price or carrier description is rejected, store
unchanged. -/
theorem agreed_requires_fields_witness :
    patchShipmentCore demoDbPending "u1" demoBadUpdate 5 true =
      (.error (.validation agreedFieldsMsg), demoDbPending) :=
  (agreed_requires_fields demoDbPending "u1" demoBadUpdate 5 true demoPendingShipment
      Status.agreed none none rfl).1 ⟨rfl, Or.inl rfl⟩

/-- Witness for C4: a create with delivery before pickup is rejected and
nothing is persisted. -/
theorem create_rejects_delivery_before_pickup_witness :
    postShipments demoDb0 demoBadCreate "u2" 0 =
      (.error (.validation deliveryBeforePickupMsg), demoDb0) :=
  (create_rejects_delivery_before_pickup demoDb0 demoBadCreate "u2" 0
      "2025-01-02T08:00" "2025-01-01T08:00" (by decide) (by decide)).1 (by decide)

/-- Witness for C5: a bucket with zero calls shows a zero success rate. -/
theorem stats_zero_guards_witness :
    headlineSuccessRate ⟨0, 0, 0⟩ = 0 :=
  (stats_zero_guards [] [] demoPendingShipment ⟨0, 0, 0⟩ rfl rfl).2.2.2.1

/-- Witness for C8: a query matching no record yields the empty list. -/
theorem free_text_filter_exact_witness :
    applyFilters { q := some ("zz") } [demoPendingShipment] = [] :=
  (free_text_filter_exact [demoPendingShipment] "zz" demoPendingShipment).2 (by decide)

/-- Witness for C9: ascending pickup sort permutes the input, and a record
with no loadboard rate carries sort key zero. -/
theorem sort_contract_witness :
    List.Perm (sortShipmentsAsc SortField.pickup_datetime [demoPendingShipment])
        [demoPendingShipment]
      ∧ sortKey SortField.loadboard_rate demoPendingShipment = 0 :=
  ⟨(sort_contract SortField.pickup_datetime [demoPendingShipment] 0
      demoPendingShipment rfl rfl).1,
   (sort_contract SortField.pickup_datetime [demoPendingShipment] 0
      demoPendingShipment rfl rfl).2.2.2.2.2.2.1⟩

/-- Witness for C10: on a concrete two-entry cache, mutation followed by
the error rollback restores the cache exactly; the toggle route is the
generic one. -/
theorem toggle_generic_route_and_rollback_witness :
    useToggleShipmentStatusRoute "7" = ("PATCH", "/shipments/7")
    ∧ toggleOnError (toggleOnMutate "u1" Status.agreed demoCache).2
        (toggleOnMutate "u1" Status.agreed demoCache).1 = demoCache :=
  ⟨(toggle_generic_route_and_rollback "u1" "7" Status.agreed demoCache (by decide)).1,
   (toggle_generic_route_and_rollback "u1" "7" Status.agreed demoCache (by decide)).2.2⟩
